import Mathlib

/-!
Shallow embedding of the categraf zookeeper input
(src/inputs/zookeeper/zookeeper.go) and proofs about it.

Strings are modelled as lists of characters (Str).  The Go standard-library
helpers the source calls (strings.Split, strings.Fields, strings.Contains,
strings.NewReplacer("-","_",".","_"), strconv.Atoi / strconv.ParseFloat
acceptance, and the two regular expressions versionRE and the label regexes
in parseLabels) are modelled as executable functions below, each next to a
comment naming the Go call it models.

The measurement sink (inputs.NewSample and slist.PushFront) lives outside
src/.  Modelled from the spec (section 6, Measurement Sink Adapter):
emit(name, value, tags) appends one measurement whose tag map is the merge of
the tag maps given at the call site.  A run of the code is modelled as the
list of samples in chronological push order, the list of log lines in
chronological order, and a flag that records whether the code panicked
(a Go index-out-of-range on kv[0]/kv[1] in gatherMntrResult).
-/

set_option maxRecDepth 20000

abbrev Str := List Char

def str (s : String) : Str := s.toList

/-- Go map[string]string, modelled as an association list in insertion order. -/
abbrev Tags := List (Str × Str)

/-- m[k] = v on a Go map: replace an existing binding for k, else append. -/
def mapInsert : Tags → Str → Str → Tags
  | [], k, v => [(k, v)]
  | (k0, v0) :: rest, k, v =>
    if k0 = k then (k, v) :: rest else (k0, v0) :: mapInsert rest k v

/-- Merge the bindings of add into m, one Go map assignment per binding. -/
def mergeInto (m : Tags) (add : Tags) : Tags :=
  add.foldl (fun acc p => mapInsert acc p.1 p.2) m

/-- Value attached to a sample: the Go code passes ints (0/1), the raw value
string of a stats line, or the elapsed-seconds float (kept abstract as a
token, since no code inspects it). -/
inductive SVal where
  | i (n : Int)
  | s (v : Str)
  | d (t : Nat)
  deriving DecidableEq, Repr

/-- One emitted measurement: name, value and its merged tag map. -/
structure Sample where
  name : Str
  value : SVal
  tags : Tags
  deriving DecidableEq, Repr

/-- Log lines the zookeeper input can produce, one constructor per call site:
log.Println on a connect error (gatherOnce), log.Println on a write error and
log.Printf on a read error (sendZookeeperCmd), log.Printf with
commandNotAllowedTmpl (gatherMntrResult / gatherRuokResult), and the
warning for a non-numeric stats value (gatherMntrResult default case). -/
inductive LogLine where
  | connErr (host : Str)
  | writeErr (cmd : Str)
  | readErr (cmd addr : Str)
  | cmdNotAllowed (cmd addr : Str)
  | skipNonDigit (key value : Str)
  deriving DecidableEq, Repr

/-- Modelled from the spec: inputs.NewSample (the Measurement Sink Adapter of
spec section 6) is not under src/.  It is modelled as emitting the given
name and value with the tag maps merged left to right, later maps
overriding earlier keys — emit(name, value, tags). -/
def NewSample (name : Str) (v : SVal) (tagSets : List Tags) : Sample :=
  ⟨name, v, tagSets.foldl mergeInto []⟩

/-- const cmdNotExecutedSffx of the source. -/
def cmdNotExecutedSffx : Str := str "is not executed because it is not in the whitelist."

/-- const instanceNotServingMessage of the source. -/
def instanceNotServingMessage : Str := str "This ZooKeeper instance is not currently serving requests"

/-- strings.Split(s, sep) for a one-character separator (the source only
splits on a single newline character). -/
def splitChar (c : Char) : Str → List Str
  | [] => [[]]
  | x :: xs =>
    if x = c then [] :: splitChar c xs
    else
      match splitChar c xs with
      | r :: rs => (x :: r) :: rs
      | [] => [[x]]

/-- Splitting around every character satisfying p (helper for fields). -/
def splitWhen (p : Char → Bool) : Str → List Str
  | [] => [[]]
  | x :: xs =>
    if p x then [] :: splitWhen p xs
    else
      match splitWhen p xs with
      | r :: rs => (x :: r) :: rs
      | [] => [[x]]

/-- unicode.IsSpace of Go, the field separator of strings.Fields. -/
def goIsSpace (c : Char) : Bool :=
  c = ' ' || c = '\t' || c = '\n' || c = '\x0b' || c = '\x0c' || c = '\r' ||
  c.toNat = 0x85 || c.toNat = 0xa0 || c.toNat = 0x1680 ||
  (0x2000 ≤ c.toNat && c.toNat ≤ 0x200a) ||
  c.toNat = 0x2028 || c.toNat = 0x2029 || c.toNat = 0x202f ||
  c.toNat = 0x205f || c.toNat = 0x3000

/-- strings.Fields: the maximal runs of non-space characters. -/
def fields (s : Str) : List Str :=
  (splitWhen goIsSpace s).filter (fun f => f ≠ [])

/-- Whether sub is a prefix of s (helper for goContains). -/
def strStartsWith : Str → Str → Bool
  | _, [] => true
  | [], _ :: _ => false
  | a :: as, b :: bs => a = b && strStartsWith as bs

/-- strings.Contains(s, sub). -/
def goContains : Str → Str → Bool
  | [], sub => sub.isEmpty
  | s@(_ :: rest), sub => strStartsWith s sub || goContains rest sub

/-- metricNameReplacer.Replace: strings.NewReplacer("-", "_", ".", "_"). -/
def metricNameReplace (s : Str) : Str :=
  s.map (fun c => if c = '-' || c = '.' then '_' else c)

/-- strconv.Atoi acceptance: an optional sign then a nonempty digit run
(the range error on huge inputs is not modelled). -/
def atoiOk (s : Str) : Bool :=
  let t := match s with
    | '+' :: r => r
    | '-' :: r => r
    | r => r
  !t.isEmpty && t.all Char.isDigit

/-- Optional exponent part of a Go float literal: empty, or e/E, an optional
sign and a nonempty digit run. -/
def expOk : Str → Bool
  | [] => true
  | e :: r =>
    let r2 := match r with
      | '+' :: r3 => r3
      | '-' :: r3 => r3
      | r3 => r3
    (e = 'e' || e = 'E') && (!r2.isEmpty && r2.all Char.isDigit)

/-- Decimal mantissa then optional exponent: digits [. digits] or . digits. -/
def floatBody (t : Str) : Bool :=
  let d1 := t.takeWhile Char.isDigit
  let r1 := t.dropWhile Char.isDigit
  match r1 with
  | '.' :: r2 =>
    let d2 := r2.takeWhile Char.isDigit
    let r3 := r2.dropWhile Char.isDigit
    (!d1.isEmpty || !d2.isEmpty) && expOk r3
  | _ => !d1.isEmpty && expOk r1

/-- strconv.ParseFloat acceptance on the inputs reachable here: an optional
sign, then inf/infinity/nan (any case) or a decimal mantissa with optional
exponent.  Hexadecimal float literals, underscores and the range error are
not modelled; none of the stats values exercised by the claims use them. -/
def parseFloatOk (s : Str) : Bool :=
  let t := match s with
    | '+' :: r => r
    | '-' :: r => r
    | r => r
  let low := t.map Char.toLower
  low = str "inf" || low = str "infinity" || low = str "nan" || floatBody t

/-- func isDigit of the source: strconv.Atoi succeeds or strconv.ParseFloat
succeeds. -/
def isDigit (s : Str) : Bool :=
  atoiOk s || parseFloatOk s

/-- The leading dotted numeric triplet of versionRE: a maximal nonempty digit
run, a dot, again, a dot, again; returns the triplet and the rest. -/
def tripletHead (s : Str) : Option (Str × Str) :=
  let d1 := s.takeWhile Char.isDigit
  let r1 := s.dropWhile Char.isDigit
  if d1.isEmpty then none
  else
    match r1 with
    | '.' :: r2 =>
      let d2 := r2.takeWhile Char.isDigit
      let r3 := r2.dropWhile Char.isDigit
      if d2.isEmpty then none
      else
        match r3 with
        | '.' :: r4 =>
          let d3 := r4.takeWhile Char.isDigit
          let r5 := r4.dropWhile Char.isDigit
          if d3.isEmpty then none
          else some (d1 ++ '.' :: d2 ++ '.' :: d3, r5)
        | _ => none
    | _ => none

/-- versionRE.ReplaceAllString(s, dollar-one) for
versionRE = ^([0-9]+\.[0-9]+\.[0-9]+).*$ : the anchored pattern matches the
whole string exactly when it starts with a dotted numeric triplet and the
rest holds no newline (Go regexp dot and dollar do not cross a newline
without the m flag); on a match the string is replaced by the captured
triplet, otherwise it is returned unchanged. -/
def versionReplaceAll (s : Str) : Str :=
  match tripletHead s with
  | some (t, rest) => if rest.any (fun c => c = '\n') then s else t
  | none => s

/-- Greedy close of the labelsRE match: after the opening brace, the dot of
{(.*)} stops at a newline, so the group runs to the last closing brace
before any newline; none when there is no such closing brace. -/
def greedyClose (r : Str) : Option Str :=
  let pre := r.takeWhile (fun c => c ≠ '\n')
  if pre.any (fun c => c = '\x7d') then
    some ((pre.reverse.dropWhile (fun c => c ≠ '\x7d')).drop 1).reverse
  else none

/-- labelsRE.FindStringSubmatch group 1, for labelsRE = {(.*)} : the leftmost
opening brace that has a closing brace after it (before any newline), with
the greedy group running to the last such closing brace. -/
def bracesGroup : Str → Option Str
  | [] => none
  | x :: rest =>
    if x = '\x7b' then
      match greedyClose rest with
      | some g => some g
      | none => bracesGroup rest
    else bracesGroup rest

/-- Whether r starts with a double quote and holds another one after it —
the condition for (\".*\") to match starting at r. -/
def startsQuoteQuote : Str → Bool
  | '"' :: t => t.any (fun c => c = '"')
  | _ => false

/-- The rightmost = that (\".*\") can follow: returns (characters before it,
characters after it).  Rightmost because the leading greedy (.*) of labelRE
maximises group 1 first.  (The inputs reaching this, pieces of a bracesGroup,
never hold a newline, so the newline restriction of dot needs no handling.) -/
def lastEqSplit : Str → Option (Str × Str)
  | [] => none
  | x :: rest =>
    match lastEqSplit rest with
    | some (pre, suf) => some (x :: pre, suf)
    | none => if x = '=' && startsQuoteQuote rest then some ([], rest) else none

/-- labelRE.FindStringSubmatch for labelRE = (.*)\=(\".*\") : group 1 is
everything before the chosen =, group 2 runs from the following quote to the
last quote (greedy dot inside the quotes). -/
def labelMatch (p : Str) : Option (Str × Str) :=
  match lastEqSplit p with
  | some (pre, suf) => some (pre, (suf.reverse.dropWhile (fun c => c ≠ '"')).reverse)
  | none => none

/-- func parseLabels of the source: take the brace-enclosed group, split it
on commas, and for each piece matching labelRE bind group 1 to group 2. -/
def parseLabels (s : Str) : Tags :=
  match bracesGroup s with
  | none => []
  | some g =>
    (splitChar ',' g).foldl
      (fun acc piece =>
        match labelMatch piece with
        | some (k, v) => mapInsert acc k v
        | none => acc)
      []

/-- An open connection, as far as the code observes it: the remote address
used in log lines, whether conn.Write fails, the bytes ioutil.ReadAll
returns (possibly partial on a read error), and whether it returns an
error. -/
structure Conn where
  remoteAddr : Str
  writeErr : Bool
  readData : Str
  readErr : Bool
  deriving DecidableEq, Repr

/-- func sendZookeeperCmd of the source: write the command (on error only
log), read everything (on error only log), and return the bytes read as a
string — there is no error in the return value. -/
def sendZookeeperCmd (conn : Conn) (cmd : Str) : Str × List LogLine :=
  let wlog := if conn.writeErr then [LogLine.writeErr cmd] else []
  let rlog := if conn.readErr then [LogLine.readErr cmd conn.remoteAddr] else []
  (conn.readData, wlog ++ rlog)

/-- The switch on a key/value pair of one stats line (the body of the range
loop of gatherMntrResult after kv is split): returns the samples pushed and
the log lines produced by that line. -/
def mntrKV (g : Tags) (key value : Str) : List Sample × List LogLine :=
  if key = str "zk_server_state" then
    if value = str "leader" then
      ([NewSample (str "zk_server_leader") (SVal.i 1) [g]], [])
    else
      ([NewSample (str "zk_server_leader") (SVal.i 0) [g]], [])
  else if key = str "zk_version" then
    ([NewSample (str "zk_version") (SVal.i 1)
        [g, [(str "version", versionReplaceAll value)]]], [])
  else if key = str "zk_peer_state" then
    ([NewSample (str "zk_peer_state") (SVal.i 1) [g, [(str "state", value)]]], [])
  else
    if !isDigit value then
      ([], [LogLine.skipNonDigit key value])
    else
      let k := metricNameReplace key
      if goContains k (str "\x7b") then
        ([NewSample k (SVal.s value) [g, parseLabels k]], [])
      else
        ([NewSample k (SVal.s value) [g]], [])

/-- One iteration of the line loop of gatherMntrResult: an empty line is
skipped; otherwise kv := strings.Fields(l) and the code reads kv[0] and
kv[1] with no length check, so a line with fewer than two fields is a
runtime panic (index out of range), modelled as none. -/
def mntrLine (g : Tags) (l : Str) : Option (List Sample × List LogLine) :=
  if l = [] then some ([], [])
  else
    match fields l with
    | key :: value :: _ => some (mntrKV g key value)
    | _ => none

/-- The line loop of gatherMntrResult over all lines: samples and logs in
order; the Bool is true when some line panicked, in which case the later
lines are never reached. -/
def mntrLoop (g : Tags) : List Str → List Sample × List LogLine × Bool
  | [] => ([], [], false)
  | l :: ls =>
    match mntrLine g l with
    | none => ([], [], true)
    | some (ss, lg) =>
      let r := mntrLoop g ls
      (ss ++ r.1, lg ++ r.2.1, r.2.2)

/-- func gatherMntrResult of the source (the ins parameter is unused there
and dropped here; g is globalTags): send mntr, split the reply on newlines,
handle the whitelist banner, push zk_up 1, handle the not-serving banner,
then run the line loop. -/
def gatherMntrResult (g : Tags) (conn : Conn) : List Sample × List LogLine × Bool :=
  let t := sendZookeeperCmd conn (str "mntr")
  let lines := splitChar '\n' t.1
  let l0 := lines.headD []
  if goContains l0 cmdNotExecutedSffx then
    ([NewSample (str "zk_up") (SVal.i 0) [g]],
     t.2 ++ [LogLine.cmdNotAllowed (str "mntr") conn.remoteAddr], false)
  else
    let up := NewSample (str "zk_up") (SVal.i 1) [g]
    if l0 = instanceNotServingMessage then
      ([up, NewSample (str "zk_server_leader") (SVal.i 1) [g]], t.2, false)
    else
      let r := mntrLoop g lines
      (up :: r.1, t.2 ++ r.2.1, r.2.2)

/-- func gatherRuokResult of the source (ins unused and dropped; g is
globalTags). -/
def gatherRuokResult (g : Tags) (conn : Conn) : List Sample × List LogLine :=
  let t := sendZookeeperCmd conn (str "ruok")
  if t.1 = str "imok" then
    ([NewSample (str "zk_ruok") (SVal.i 1) [g]], t.2)
  else
    let w := if goContains t.1 cmdNotExecutedSffx then
        [LogLine.cmdNotAllowed (str "ruok") conn.remoteAddr]
      else []
    ([NewSample (str "zk_ruok") (SVal.i 0) [g]], t.2 ++ w)

/-- The environment one host task runs against: the outcome of the first
ins.ZkConnect (none on a connect error), of the second one for ruok, and
the elapsed-seconds token pushed by the deferred zk_scrape_use_seconds
sample. -/
structure HostEnv where
  conn1 : Option Conn
  conn2 : Option Conn
  use : Nat
  deriving DecidableEq, Repr

/-- func gatherOnce of the source for one host: build the tag map from
zk_host, zk_cluster and the instance labels; the deferred
zk_scrape_use_seconds push runs last on every path (also after a panic,
since Go runs deferred calls while unwinding); a failed first connect pushes
zk_up 0, logs, and returns; otherwise gatherMntrResult runs, then the second
connect and gatherRuokResult. -/
def gatherOnce (env : HostEnv) (zkHost cluster : Str) (insLabels : Tags) :
    List Sample × List LogLine × Bool :=
  let tags := mergeInto [(str "zk_host", zkHost), (str "zk_cluster", cluster)] insLabels
  let scrape := NewSample (str "zk_scrape_use_seconds") (SVal.d env.use) [tags]
  match env.conn1 with
  | none =>
    ([NewSample (str "zk_up") (SVal.i 0) [tags], scrape], [LogLine.connErr zkHost], false)
  | some c =>
    let m := gatherMntrResult tags c
    if m.2.2 then
      (m.1 ++ [scrape], m.2.1, true)
    else
      match env.conn2 with
      | none =>
        (m.1 ++ [NewSample (str "zk_ruok") (SVal.i 0) [tags], scrape],
         m.2.1 ++ [LogLine.connErr zkHost], false)
      | some c2 =>
        let r := gatherRuokResult tags c2
        (m.1 ++ r.1 ++ [scrape], m.2.1 ++ r.2, false)

/-! ## Concrete connections used by counterexamples and witnesses -/

/-- A stats reply holding a non-empty line with a single field followed by a
well-formed line. -/
def c1Conn : Conn := ⟨str "zk1:2181", false, str "abc\nzk_server_state leader", false⟩

/-- A stats reply with one labelled metric line. -/
def c2Conn : Conn :=
  ⟨str "zk1:2181", false, str "foo\x7bbar=\"baz\",qux=\"quux\"\x7d 5", false⟩

/-- A stats reply equal to the not-serving banner. -/
def c3Conn : Conn := ⟨str "zk1:2181", false, instanceNotServingMessage, false⟩

/-- A read failure that read nothing. -/
def c4ConnReadFail : Conn := ⟨str "zk1:2181", false, [], true⟩

/-- A valid empty reply. -/
def c4ConnEmptyOk : Conn := ⟨str "zk1:2181", false, [], false⟩

/-- A stats reply whose first line carries the whitelist banner. -/
def c5Conn : Conn :=
  ⟨str "zk1:2181", false, str "mntr is not executed because it is not in the whitelist.", false⟩

/-- A stats reply with a malformed line before the server-state line. -/
def c8Conn : Conn := ⟨str "zk1:2181", false, str "x\nzk_server_state leader", false⟩

/-! ## Claims -/

/-- C10: on the empty reply string the stats parser emits exactly one
measurement, zk_up valued 1, and nothing else (whatever the transport
errors were); it does not panic, and the only log lines are the transport
ones. -/
theorem c10_empty_reply (g : Tags) (addr : Str) (we re : Bool) :
    gatherMntrResult g ⟨addr, we, [], re⟩ =
      ([NewSample (str "zk_up") (SVal.i 1) [g]],
       (if we then [LogLine.writeErr (str "mntr")] else []) ++
         (if re then [LogLine.readErr (str "mntr") addr] else []), false) := by
  cases we <;> cases re <;> rfl

/-- C1: on the reply "abc\nzk_server_state leader" the non-empty single-field
line "abc" makes gatherMntrResult read kv[1] out of range: the model records
a panic, only the zk_up sample pushed before the loop is emitted, and the
following zk_server_state line is never parsed — the spec instead demands the
malformed line be skipped. -/
theorem c1_single_field_panics :
    gatherMntrResult [] c1Conn =
      ([NewSample (str "zk_up") (SVal.i 1) [[]]], [], true) := by decide

/-- C2 counterexample: for the input key foo\x7bbar="baz",qux="quux"\x7d with
value 5 no emitted sample is named "foo" — the label-bearing sample keeps the
whole brace segment in its name. -/
theorem c2_counterexample :
    ((gatherMntrResult [] c2Conn).1.all (fun s => s.name != str "foo")) = true ∧
    (gatherMntrResult [] c2Conn).1 =
      [NewSample (str "zk_up") (SVal.i 1) [[]],
       NewSample (str "foo\x7bbar=\"baz\",qux=\"quux\"\x7d") (SVal.s (str "5"))
         [[], [(str "bar", str "\"baz\""), (str "qux", str "\"quux\"")]]] :=
  ⟨by decide, by decide⟩

/-- C2 amended: the measurement is named with the full separator-normalized
key, brace segment included; its value is the validated numeric string "5"
and its extra label tags are bar and qux bound to the quoted values. -/
theorem c2_amended (g : Tags) (addr : Str) :
    (gatherMntrResult g
        ⟨addr, false, str "foo\x7bbar=\"baz\",qux=\"quux\"\x7d 5", false⟩).1 =
      [NewSample (str "zk_up") (SVal.i 1) [g],
       NewSample (str "foo\x7bbar=\"baz\",qux=\"quux\"\x7d") (SVal.s (str "5"))
         [g, [(str "bar", str "\"baz\""), (str "qux", str "\"quux\"")]]] := by
  rfl

/-- C3 counterexample: on a reply equal to the not-serving banner the parser
emits two measurements (zk_up valued 1, then zk_server_leader valued 1), not
exactly one. -/
theorem c3_counterexample :
    (gatherMntrResult [] c3Conn).1 =
      [NewSample (str "zk_up") (SVal.i 1) [[]],
       NewSample (str "zk_server_leader") (SVal.i 1) [[]]] ∧
    (gatherMntrResult [] c3Conn).1.length ≠ 1 :=
  ⟨by decide, by decide⟩

/-- C3 amended: for every stats reply whose first line equals the not-serving
banner exactly, the parser emits exactly two measurements — zk_up valued 1
and then zk_server_leader valued 1 — produces no log beyond the transport
ones, does not panic, and parses no further lines. -/
theorem c3_amended (g : Tags) (conn : Conn)
    (h : (splitChar '\n' conn.readData).headD [] = instanceNotServingMessage) :
    gatherMntrResult g conn =
      ([NewSample (str "zk_up") (SVal.i 1) [g],
        NewSample (str "zk_server_leader") (SVal.i 1) [g]],
       (sendZookeeperCmd conn (str "mntr")).2, false) := by
  have h1 : (sendZookeeperCmd conn (str "mntr")).1 = conn.readData := rfl
  have hb : goContains instanceNotServingMessage cmdNotExecutedSffx = false := by decide
  simp only [gatherMntrResult, h1, h, hb]
  simp

/-- C3 amended, witness: the amended statement evaluated on a concrete
banner-only reply. -/
theorem c3_amended_witness :
    gatherMntrResult [] c3Conn =
      ([NewSample (str "zk_up") (SVal.i 1) [[]],
        NewSample (str "zk_server_leader") (SVal.i 1) [[]]], [], false) :=
  c3_amended [] c3Conn (by decide)

/-- C4 counterexample: a read failure that read nothing and a valid empty
reply return the very same value — the returned reply string carries no
typed transport-error component that could tell them apart. -/
theorem c4_counterexample :
    (sendZookeeperCmd c4ConnReadFail (str "mntr")).1 = [] ∧
    (sendZookeeperCmd c4ConnEmptyOk (str "mntr")).1 = [] ∧
    (sendZookeeperCmd c4ConnReadFail (str "mntr")).1 =
      (sendZookeeperCmd c4ConnEmptyOk (str "mntr")).1 ∧
    c4ConnReadFail.readErr ≠ c4ConnEmptyOk.readErr :=
  ⟨rfl, rfl, rfl, by decide⟩

/-- C4 amended: sendZookeeperCmd returns only the bytes read as the reply,
for every connection and command; write and read failures are surfaced as log
lines alone, so an empty valid reply and a failed read that read nothing
yield the same returned reply and differ only in the log. -/
theorem c4_amended (conn : Conn) (cmd : Str) :
    sendZookeeperCmd conn cmd =
      (conn.readData,
       (if conn.writeErr then [LogLine.writeErr cmd] else []) ++
         (if conn.readErr then [LogLine.readErr cmd conn.remoteAddr] else [])) := rfl

/-- C5: for every stats reply whose first line contains the whitelist banner
substring, the parser emits exactly one measurement, zk_up valued 0, logs the
command-not-allowed warning — a log constructor distinct from the
connectivity-failure one, which never occurs here — and does not panic. -/
theorem c5_disallowed_banner (g : Tags) (conn : Conn)
    (h : goContains ((splitChar '\n' conn.readData).headD []) cmdNotExecutedSffx = true) :
    (gatherMntrResult g conn).1 = [NewSample (str "zk_up") (SVal.i 0) [g]] ∧
    LogLine.cmdNotAllowed (str "mntr") conn.remoteAddr ∈ (gatherMntrResult g conn).2.1 ∧
    (∀ hst, LogLine.connErr hst ∉ (gatherMntrResult g conn).2.1) ∧
    (gatherMntrResult g conn).2.2 = false := by
  have h1 : (sendZookeeperCmd conn (str "mntr")).1 = conn.readData := rfl
  simp only [gatherMntrResult, h1, h]
  refine ⟨by simp, by simp, ?_, by simp⟩
  intro hst
  simp only [sendZookeeperCmd]
  cases conn.writeErr <;> cases conn.readErr <;> simp

/-- C5 witness: the C5 statement evaluated on a concrete banner reply. -/
theorem c5_disallowed_banner_witness :
    (gatherMntrResult [] c5Conn).1 = [NewSample (str "zk_up") (SVal.i 0) [[]]] ∧
    LogLine.cmdNotAllowed (str "mntr") (str "zk1:2181") ∈ (gatherMntrResult [] c5Conn).2.1 :=
  ⟨(c5_disallowed_banner [] c5Conn (by decide)).1,
   (c5_disallowed_banner [] c5Conn (by decide)).2.1⟩

/-- C6: for every liveness reply, the reply "imok" yields zk_ruok valued 1
and any other reply yields zk_ruok valued 0, with the whitelist warning
logged exactly when the reply is not "imok" and contains the banner
substring. -/
theorem c6_ruok (g : Tags) (conn : Conn) :
    (gatherRuokResult g conn).1 =
      [NewSample (str "zk_ruok")
        (SVal.i (if conn.readData = str "imok" then 1 else 0)) [g]] ∧
    (LogLine.cmdNotAllowed (str "ruok") conn.remoteAddr ∈ (gatherRuokResult g conn).2 ↔
      (conn.readData ≠ str "imok" ∧
        goContains conn.readData cmdNotExecutedSffx = true)) := by
  have h1 : (sendZookeeperCmd conn (str "ruok")).1 = conn.readData := rfl
  by_cases h : conn.readData = str "imok"
  · simp only [gatherRuokResult, h1, h, if_pos rfl]
    refine ⟨by simp, ?_⟩
    simp only [sendZookeeperCmd]
    cases conn.writeErr <;> cases conn.readErr <;> simp [h]
  · simp only [gatherRuokResult, h1, if_neg h]
    refine ⟨by simp [h], ?_⟩
    by_cases hc : goContains conn.readData cmdNotExecutedSffx = true
    · simp only [hc, if_pos rfl]
      simp [h, hc]
    · simp only [hc]
      simp only [sendZookeeperCmd]
      cases conn.writeErr <;> cases conn.readErr <;> simp [h, hc]

/-- C7: the version value "3.5.2-beta" normalizes to "3.5.2"; every value
without a leading dotted numeric triplet passes through versionReplaceAll
unchanged; and a stats line "zk_version 3.5.2-beta" makes the parser emit
the zk_version measurement valued 1 tagged with version "3.5.2". -/
theorem c7_version :
    versionReplaceAll (str "3.5.2-beta") = str "3.5.2" ∧
    (∀ s, tripletHead s = none → versionReplaceAll s = s) ∧
    (∀ (g : Tags) (addr : Str),
      (gatherMntrResult g ⟨addr, false, str "zk_version 3.5.2-beta", false⟩).1 =
        [NewSample (str "zk_up") (SVal.i 1) [g],
         NewSample (str "zk_version") (SVal.i 1)
           [g, [(str "version", str "3.5.2")]]]) := by
  refine ⟨by decide, ?_, ?_⟩
  · intro s h
    simp [versionReplaceAll, h]
  · intro g addr
    rfl

/-- C7 witness: a value with no dotted-triplet head passes through
unchanged. -/
theorem c7_version_witness :
    tripletHead (str "banana") = none ∧
    versionReplaceAll (str "banana") = str "banana" :=
  ⟨by decide, c7_version.2.1 (str "banana") (by decide)⟩

/-- Helper: a line on which every non-empty line has at least two fields is
processed without a panic. -/
theorem mntrLine_isSome (g : Tags) (a : Str) (h : a ≠ [] → 2 ≤ (fields a).length) :
    ∃ p, mntrLine g a = some p := by
  by_cases ha : a = []
  · exact ⟨([], []), by simp [mntrLine, ha]⟩
  · have h2 := h ha
    rcases hfa : fields a with _ | ⟨k, kt⟩
    · rw [hfa] at h2
      simp at h2
    · rcases kt with _ | ⟨v2, rest2⟩
      · rw [hfa] at h2
        simp at h2
      · exact ⟨mntrKV g k v2, by simp [mntrLine, ha, hfa]⟩

/-- Helper: inside the stats line loop, a line whose fields begin
zk_server_state then a value contributes the is-leader sample valued after
that value, provided every non-empty line has at least two fields (so that
no earlier line panics). -/
theorem mntrLoop_mem_leader (g : Tags) (v : Str) (rest : List Str) (l : Str)
    (hf : fields l = str "zk_server_state" :: v :: rest) :
    ∀ lines : List Str, (∀ l2 ∈ lines, l2 ≠ [] → 2 ≤ (fields l2).length) →
      l ∈ lines →
      NewSample (str "zk_server_leader") (SVal.i (if v = str "leader" then 1 else 0)) [g]
        ∈ (mntrLoop g lines).1 := by
  intro lines
  induction lines with
  | nil =>
    intro _ hl
    cases hl
  | cons a as ih =>
    intro hwf hl
    rcases List.mem_cons.mp hl with h1 | h1
    · subst h1
      have ha : l ≠ [] := by
        intro h0
        rw [h0] at hf
        simp [fields, splitWhen] at hf
      have hline : mntrLine g l = some (mntrKV g (str "zk_server_state") v) := by
        simp [mntrLine, ha, hf]
      by_cases hv : v = str "leader" <;>
        simp [mntrLoop, hline, mntrKV, hv]
    · obtain ⟨⟨ss, lg⟩, hp⟩ := mntrLine_isSome g a (hwf a (List.mem_cons_self a as))
      have hm := ih (fun l2 h2 => hwf l2 (List.mem_cons_of_mem a h2)) h1
      simp only [mntrLoop, hp]
      exact List.mem_append_right _ hm

/-- C8 counterexample: a reply holding a zk_server_state leader line behind a
malformed single-field line makes the parser panic before reaching it, so no
is-leader sample at all is emitted, although the reply matches neither
banner. -/
theorem c8_counterexample :
    (str "zk_server_state leader" ∈ splitChar '\n' c8Conn.readData ∧
      fields (str "zk_server_state leader") = str "zk_server_state" :: str "leader" :: []) ∧
    goContains ((splitChar '\n' c8Conn.readData).headD []) cmdNotExecutedSffx = false ∧
    (splitChar '\n' c8Conn.readData).headD [] ≠ instanceNotServingMessage ∧
    NewSample (str "zk_server_leader") (SVal.i 1) [[]] ∉ (gatherMntrResult [] c8Conn).1 ∧
    (gatherMntrResult [] c8Conn).2.2 = true :=
  ⟨⟨by decide, by decide⟩, by decide, by decide, by decide, by decide⟩

/-- C8 amended: for every well-formed stats reply (each non-empty line has at
least two whitespace-separated fields) matching neither banner and holding a
line whose key is zk_server_state, the parser emits the zk_server_leader
sample valued 1 when that line's value is "leader" and 0 otherwise. -/
theorem c8_server_state (g : Tags) (conn : Conn) (l v : Str) (rest : List Str)
    (hb : goContains ((splitChar '\n' conn.readData).headD []) cmdNotExecutedSffx = false)
    (hns : (splitChar '\n' conn.readData).headD [] ≠ instanceNotServingMessage)
    (hwf : ∀ l2 ∈ splitChar '\n' conn.readData, l2 ≠ [] → 2 ≤ (fields l2).length)
    (hl : l ∈ splitChar '\n' conn.readData)
    (hf : fields l = str "zk_server_state" :: v :: rest) :
    NewSample (str "zk_server_leader") (SVal.i (if v = str "leader" then 1 else 0)) [g]
      ∈ (gatherMntrResult g conn).1 := by
  have h1 : (sendZookeeperCmd conn (str "mntr")).1 = conn.readData := rfl
  have hm := mntrLoop_mem_leader g v rest l hf (splitChar '\n' conn.readData) hwf hl
  simp only [gatherMntrResult, h1, hb, hns]
  simp only [Bool.false_eq_true, if_false, if_neg hns]
  exact List.mem_cons_of_mem _ hm

/-- C8 witness: the amended statement evaluated on a concrete two-line reply
whose server state is leader. -/
theorem c8_server_state_witness :
    NewSample (str "zk_server_leader") (SVal.i 1) [[]] ∈
      (gatherMntrResult []
        ⟨str "zk1:2181", false, str "zk_version 3.6.3\nzk_server_state leader", false⟩).1 :=
  c8_server_state [] ⟨str "zk1:2181", false, str "zk_version 3.6.3\nzk_server_state leader", false⟩
    (str "zk_server_state leader") (str "leader") []
    (by decide) (by decide) (by decide) (by decide) (by decide)

/-- C9: for every host task, the zk_scrape_use_seconds sample is emitted
whatever the outcome (the deferred push runs on every path), and when the
first connect fails the task emits exactly zk_up valued 0 followed by the
deferred scrape sample, logs the connect error, and runs neither probe. -/
theorem c9_gather_once (env : HostEnv) (zkHost cluster : Str) (insLabels : Tags) :
    (NewSample (str "zk_scrape_use_seconds") (SVal.d env.use)
        [mergeInto [(str "zk_host", zkHost), (str "zk_cluster", cluster)] insLabels]
      ∈ (gatherOnce env zkHost cluster insLabels).1) ∧
    (env.conn1 = none →
      gatherOnce env zkHost cluster insLabels =
        ([NewSample (str "zk_up") (SVal.i 0)
            [mergeInto [(str "zk_host", zkHost), (str "zk_cluster", cluster)] insLabels],
          NewSample (str "zk_scrape_use_seconds") (SVal.d env.use)
            [mergeInto [(str "zk_host", zkHost), (str "zk_cluster", cluster)] insLabels]],
         [LogLine.connErr zkHost], false)) := by
  obtain ⟨c1, c2, use⟩ := env
  constructor
  · cases c1 with
    | none => simp [gatherOnce]
    | some c =>
      cases c2 with
      | none =>
        by_cases hp : (gatherMntrResult
            (mergeInto [(str "zk_host", zkHost), (str "zk_cluster", cluster)] insLabels) c).2.2 <;>
          simp [gatherOnce, hp]
      | some cc =>
        by_cases hp : (gatherMntrResult
            (mergeInto [(str "zk_host", zkHost), (str "zk_cluster", cluster)] insLabels) c).2.2 <;>
          simp [gatherOnce, hp]
  · intro h
    cases c1 with
    | none => rfl
    | some c => cases h

/-- C9 witness: a concrete host task whose first connect fails. -/
theorem c9_gather_once_witness :
    gatherOnce ⟨none, none, 7⟩ (str "zk1:2181") (str "c1") [] =
      ([NewSample (str "zk_up") (SVal.i 0)
          [[(str "zk_host", str "zk1:2181"), (str "zk_cluster", str "c1")]],
        NewSample (str "zk_scrape_use_seconds") (SVal.d 7)
          [[(str "zk_host", str "zk1:2181"), (str "zk_cluster", str "c1")]]],
       [LogLine.connErr (str "zk1:2181")], false) :=
  (c9_gather_once ⟨none, none, 7⟩ (str "zk1:2181") (str "c1") []).2 rfl
